import Mathlib

/-!
Shallow embedding of `src/drivers/MongoDriver.ts` from Shuruhatik/hawiah-mongo.

The adapter translates between a generic query/record shape and MongoDB's
native shape.  We model:

* JavaScript values reaching the adapter as an inductive `Value`
  (strings, numbers, ObjectId instances, booleans, `null`, `undefined`);
* records/queries (JavaScript objects) as association lists
  `Doc = List (String × Value)`; JavaScript objects have unique keys and
  preserve insertion order, which the `objInsert` operation mirrors
  (assignment to an existing key overwrites in place, to a fresh key appends);
* the backing MongoDB collection as a `List Doc` in natural (insertion)
  order, with the standard equality-matching, `insertOne`, `updateMany`
  (`$set`), `deleteMany` and `countDocuments` semantics of the store; the
  insert path replaces a missing or null-ish identifier (JavaScript
  `doc._id == null`, true for `null` and `undefined`) with a freshly
  generated ObjectId and serializes `undefined` field values as `null`
  (the driver default `ignoreUndefined: false`);
* the driver instance state (`db` / `collection` handles) as `DriverState`;
* each driver method as a function `DriverState → ... → Except String _`,
  where `Except.error` is the thrown JavaScript error message and an error
  leaves the state unchanged (the TypeScript methods throw before mutating).

Wall-clock readings (`new Date().toISOString()`) are modelled by passing the
ISO-8601 text of the call-time clock as an explicit `now` argument; freshly
generated ObjectIds are modelled by an explicit `freshId` hex-string argument.
-/

/-- A JavaScript value as seen by the driver: `oid` is a BSON `ObjectId`
holding its 24-hex-character canonical text. -/
inductive Value where
  | str : String → Value
  | num : Int → Value
  | oid : String → Value
  | boolV : Bool → Value
  | null : Value
  | undef : Value
deriving DecidableEq, Repr

/-- A JavaScript object (record, query or stored document): an ordered list
of key/value bindings with (in any reachable state) unique keys. -/
abbrev Doc : Type := List (String × Value)

/-- Property lookup `obj[k]`: first binding of key `k`. -/
def lookupV (d : Doc) (k : String) : Option Value :=
  match d with
  | [] => none
  | (k', v) :: rest => if k' = k then some v else lookupV rest k

/-- Property assignment `obj[k] = v`: overwrites an existing key in place,
otherwise appends the new binding (JavaScript object semantics). -/
def objInsert (d : Doc) (k : String) (v : Value) : Doc :=
  match d with
  | [] => [(k, v)]
  | (k', v') :: rest =>
      if k' = k then (k, v) :: rest else (k', v') :: objInsert rest k v

/-- Property deletion `delete obj[k]`. -/
def objErase (d : Doc) (k : String) : Doc :=
  d.filter (fun kv => kv.1 ≠ k)

/-- `_id` is the identifier field of every stored document. -/
def idKey : String := "_id"

/-- The creation-timestamp management field. -/
def createdAtKey : String := "_createdAt"

/-- The update-timestamp management field. -/
def updatedAtKey : String := "_updatedAt"

/-- `v.toString()` for the values the driver converts to text
(`result.insertedId.toString()`): an `ObjectId` yields its 24-hex canonical
text, a string yields itself, a number its decimal text. -/
def toStringV : Value → String
  | .str s => s
  | .num n => toString n
  | .oid h => h
  | .boolV b => if b then "true" else "false"
  | .null => "null"
  | .undef => "undefined"

/-- `ObjectId.isValid` on a string (bson: `/^[0-9a-fA-F]\x7b24\x7d$/`):
exactly 24 hexadecimal characters. -/
def isValidObjectIdString (s : String) : Bool :=
  s.length == 24 && s.toList.all (fun c =>
    c.isDigit || ('a' ≤ c && c ≤ 'f') || ('A' ≤ c && c ≤ 'F'))

/-- MongoDB equality matching of a flat query against a document: every
query binding must be present in the document with an equal value (equality
is type-sensitive: an `ObjectId` never equals its hex string). -/
def matchesQ (q : Doc) (d : Doc) : Bool :=
  q.all (fun kv => lookupV d kv.1 == some kv.2)

/-- The backing store's collection contents, in natural (insertion) order. -/
abbrev Collection : Type := List Doc

/-- JavaScript loose equality with null, `v == null`: true exactly for
`null` and `undefined`. -/
def isNullish : Value → Bool
  | .null => true
  | .undef => true
  | _ => false

/-- BSON serialization of one value: an `undefined` value is stored as
`null` (the driver default `ignoreUndefined: false`); every other value is
stored as itself. -/
def serializeValue : Value → Value
  | .undef => .null
  | v => v

/-- BSON serialization of a document before it is stored. -/
def serializeDoc (d : Doc) : Doc :=
  d.map (fun kv => (kv.1, serializeValue kv.2))

/-- `collection.insertOne(record)`: the driver first replaces a missing or
null-ish identifier (`doc._id == null`, i.e. `null` or `undefined`) with a
freshly generated `ObjectId` (modelled by `freshId`) — written in place when
the key exists, appended when it does not — then BSON-serializes and appends
the document, reporting its `_id` as the `insertedId`.  A present
non-null-ish identifier is stored as given and echoed as the
`insertedId`. -/
def insertOne (c : Collection) (record : Doc) (freshId : String) :
    Collection × Value :=
  match lookupV record idKey with
  | some v =>
      if isNullish v then
        (c ++ [serializeDoc (objInsert record idKey (Value.oid freshId))],
         Value.oid freshId)
      else
        (c ++ [serializeDoc record], v)
  | none =>
      (c ++ [serializeDoc (objInsert record idKey (Value.oid freshId))],
       Value.oid freshId)

/-- Applying a `$set` update payload to one document: each payload field is
assigned into the document (partial-field merge, not replacement). -/
def mergeSet (d : Doc) (payload : Doc) : Doc :=
  payload.foldl (fun acc kv => objInsert acc kv.1 kv.2) d

/-- `collection.updateMany(q, \x7b $set: payload \x7d)`: merges the payload into
every matching document; `modifiedCount` counts the matching documents whose
content actually changed (MongoDB does not count already-identical ones). -/
def updateMany (c : Collection) (q : Doc) (payload : Doc) :
    Collection × Nat :=
  (c.map (fun d => if matchesQ q d then mergeSet d payload else d),
   c.countP (fun d => matchesQ q d && mergeSet d payload ≠ d))

/-- `collection.deleteMany(q)`: removes every matching document and reports
how many were removed. -/
def deleteMany (c : Collection) (q : Doc) : Collection × Nat :=
  (c.filter (fun d => !matchesQ q d), c.countP (fun d => matchesQ q d))

/-- `collection.countDocuments(q)` with no limit: the number of matches. -/
def countDocs (c : Collection) (q : Doc) : Nat :=
  c.countP (fun d => matchesQ q d)

/-- `collection.countDocuments(q, \x7b limit \x7d)`: scans the collection and
stops as soon as `limit` matches have been counted. -/
def countDocsLimited (c : Collection) (q : Doc) (limit : Nat) : Nat :=
  match c, limit with
  | [], _ => 0
  | _, 0 => 0
  | d :: rest, l + 1 =>
      if matchesQ q d then 1 + countDocsLimited rest q l
      else countDocsLimited rest q (l + 1)

/-- The driver's instance state: the `db` and `collection` handles, both
`null` until `connect()` and again after `disconnect()`.  The bound
collection handle carries the store contents it operates on. -/
structure DriverState where
  db : Option Unit
  collection : Option Collection
deriving DecidableEq

/-- The message of the error thrown when no collection handle is bound. -/
def notConnectedMsg : String := "Database not connected. Call connect() first."

namespace MongoDriver

/-- `connect()`: binds the `db` and `collection` handles; `store` is the
contents of the selected collection at the backing store. -/
def connect (store : Collection) : DriverState :=
  { db := some (), collection := some store }

/-- `disconnect()`: closes the client and clears both handles. -/
def disconnect (_st : DriverState) : DriverState :=
  { db := none, collection := none }

/-- `ensureConnected()`: throws `notConnectedMsg` when no collection handle
is bound, otherwise yields the bound collection. -/
def ensureConnected (st : DriverState) : Except String Collection :=
  match st.collection with
  | none => .error notConnectedMsg
  | some c => .ok c

/-- `set(data)`: stamps `_createdAt` and `_updatedAt` with the call-time
clock reading `now` (spread of `data` followed by the two timestamp
properties), inserts the record, and returns it with `_id` replaced by the
textual form of the store's `insertedId`. -/
def set (st : DriverState) (data : Doc) (now : String) (freshId : String) :
    Except String (DriverState × Doc) := do
  let c ← ensureConnected st
  let record :=
    objInsert (objInsert data createdAtKey (.str now)) updatedAtKey (.str now)
  let (c2, insertedId) := insertOne c record freshId
  .ok ({ st with collection := some c2 },
       objInsert record idKey (.str (toStringV insertedId)))

/-- `convertQuery(query)`: per field, an `_id` string that is a valid
24-hex ObjectId text becomes an `ObjectId`; an `_id` number, any other `_id`
value, and every non-`_id` field pass through unchanged.  The result object
is built up by assignment, as in the TypeScript loop. -/
def convertQuery (query : Doc) : Doc :=
  query.foldl
    (fun mongoQuery kv =>
      if kv.1 = idKey then
        match kv.2 with
        | .str s =>
            if isValidObjectIdString s then
              objInsert mongoQuery idKey (.oid s)
            else
              objInsert mongoQuery idKey (.str s)
        | .num n => objInsert mongoQuery idKey (.num n)
        | v => objInsert mongoQuery idKey v
      else
        objInsert mongoQuery kv.1 kv.2)
    []

/-- `convertDocument(doc)`: destructures `_id` out of the document and
rebuilds it with `_id` first, converted to its hex text when it is an
`ObjectId` and kept as-is otherwise (a missing `_id` destructures to
`undefined`). -/
def convertDocument (doc : Doc) : Doc :=
  let idv := (lookupV doc idKey).getD .undef
  (idKey, match idv with | .oid h => .str h | v => v) :: objErase doc idKey

/-- `get(query)`: translates the query, fetches all matches in natural
order, and normalizes each document. -/
def get (st : DriverState) (query : Doc) : Except String (List Doc) := do
  let c ← ensureConnected st
  let mongoQuery := convertQuery query
  .ok ((c.filter (fun d => matchesQ mongoQuery d)).map convertDocument)

/-- `getOne(query)`: translates the query and normalizes the first match,
or yields `none` (`null`). -/
def getOne (st : DriverState) (query : Doc) : Except String (Option Doc) := do
  let c ← ensureConnected st
  let mongoQuery := convertQuery query
  .ok ((c.find? (fun d => matchesQ mongoQuery d)).map convertDocument)

/-- `update(query, data)`: translates the query, builds the `$set` payload
as the spread of `data` with `_updatedAt` overwritten by the call-time clock
reading `now` and `_id` deleted, applies `updateMany`, and returns the
store's `modifiedCount`. -/
def update (st : DriverState) (query : Doc) (data : Doc) (now : String) :
    Except String (DriverState × Nat) := do
  let c ← ensureConnected st
  let mongoQuery := convertQuery query
  let updateData := objErase (objInsert data updatedAtKey (.str now)) idKey
  let (c2, modified) := updateMany c mongoQuery updateData
  .ok ({ st with collection := some c2 }, modified)

/-- `delete(query)`: translates the query, deletes all matches, returns the
store's `deletedCount`. -/
def delete (st : DriverState) (query : Doc) :
    Except String (DriverState × Nat) := do
  let c ← ensureConnected st
  let mongoQuery := convertQuery query
  let (c2, removed) := deleteMany c mongoQuery
  .ok ({ st with collection := some c2 }, removed)

/-- `exists(query)`: translates the query and asks the store to count with
`limit: 1` (a bounded existence check), returning whether that count is
positive. -/
def existsQ (st : DriverState) (query : Doc) : Except String Bool := do
  let c ← ensureConnected st
  let mongoQuery := convertQuery query
  .ok (decide (0 < countDocsLimited c mongoQuery 1))

/-- `count(query)`: translates the query and returns the full match count. -/
def count (st : DriverState) (query : Doc) : Except String Nat := do
  let c ← ensureConnected st
  let mongoQuery := convertQuery query
  .ok (countDocs c mongoQuery)

/-- `createIndex(fieldOrSpec, options)`: passthrough to the store; the
store-side index name result is modelled as the uninterpreted argument
`storeResult` (index metadata lives outside the modelled collection
contents, so the driver state is unchanged). -/
def createIndex (st : DriverState) (storeResult : String) :
    Except String (DriverState × String) := do
  let _ ← ensureConnected st
  .ok (st, storeResult)

/-- `dropIndex(indexName)`: passthrough to the store (index metadata is
outside the modelled collection contents). -/
def dropIndex (st : DriverState) (_indexName : String) :
    Except String DriverState := do
  let _ ← ensureConnected st
  .ok st

/-- `listIndexes()`: passthrough; the store-side result is modelled as the
uninterpreted argument `storeResult`. -/
def listIndexes (st : DriverState) (storeResult : List Doc) :
    Except String (DriverState × List Doc) := do
  let _ ← ensureConnected st
  .ok (st, storeResult)

/-- `aggregate(pipeline)`: passthrough; the store-side result is modelled as
the uninterpreted argument `storeResult`. -/
def aggregate (st : DriverState) (storeResult : List Doc) :
    Except String (DriverState × List Doc) := do
  let _ ← ensureConnected st
  .ok (st, storeResult)

/-- `clear()`: `deleteMany(\x7b\x7d)` — removes every document. -/
def clear (st : DriverState) : Except String DriverState := do
  let c ← ensureConnected st
  let (c2, _) := deleteMany c []
  .ok { st with collection := some c2 }

/-- `drop()`: drops the collection at the store (its documents are gone;
the bound handle itself remains). -/
def drop (st : DriverState) : Except String DriverState := do
  let _ ← ensureConnected st
  .ok { st with collection := some [] }

end MongoDriver

/-! ### Derived notions used by the statements -/

/-- The keys of an object in order. -/
def keys (d : Doc) : List String := d.map Prod.fst

/-- Whether a value is plain text (a JavaScript string). -/
def isTextual : Value → Bool
  | .str _ => true
  | _ => false

/-- Whether a value is a native identifier object (a BSON `ObjectId`). -/
def isOidValue : Value → Bool
  | .oid _ => true
  | _ => false

/-- The per-field identifier translation described for `convertQuery`:
valid 24-hex strings become `ObjectId`s, everything else passes through. -/
def convertIdValue : Value → Value
  | .str s => if isValidObjectIdString s then .oid s else .str s
  | v => v

/-- The `$set` payload `update` sends: the patch spread with `_updatedAt`
overwritten by `now` and `_id` deleted. -/
def updatePayload (data : Doc) (now : String) : Doc :=
  objErase (objInsert data updatedAtKey (.str now)) idKey

/-- The driver state resulting from an operation, `st` when it threw. -/
def stateAfter {α : Type} (st : DriverState)
    (r : Except String (DriverState × α)) : DriverState :=
  match r with
  | .ok (st2, _) => st2
  | .error _ => st

/-! ### Association-list lemmas -/

theorem lookupV_objInsert_self (d : Doc) (k : String) (v : Value) :
    lookupV (objInsert d k v) k = some v := by
  induction d with
  | nil => simp [objInsert, lookupV]
  | cons kv rest ih =>
      by_cases h : kv.1 = k
      · simp [objInsert, h, lookupV]
      · simpa [objInsert, h, lookupV] using ih

theorem lookupV_objInsert_ne (d : Doc) {k k' : String} (v : Value)
    (h : k' ≠ k) : lookupV (objInsert d k' v) k = lookupV d k := by
  induction d with
  | nil => simp [objInsert, lookupV, h]
  | cons kv rest ih =>
      by_cases hk : kv.1 = k'
      · simp [objInsert, hk, lookupV, h, Ne.symm h]
      · by_cases hk2 : kv.1 = k
        · simp [objInsert, hk, lookupV, hk2, Ne.symm h]
        · simpa [objInsert, hk, lookupV, hk2] using ih

theorem mem_objErase_ne (d : Doc) (k : String) :
    ∀ kv ∈ objErase d k, kv.1 ≠ k := by
  intro kv hkv
  have := List.of_mem_filter hkv
  simpa using this

theorem lookupV_objErase_ne (d : Doc) {k k' : String} (h : k' ≠ k) :
    lookupV (objErase d k') k = lookupV d k := by
  induction d with
  | nil => simp [objErase, lookupV]
  | cons kv rest ih =>
      by_cases hk : kv.1 = k'
      · have hne : kv.1 ≠ k := by rw [hk]; exact h
        simpa [objErase, lookupV, hk, hne, h, Ne.symm h] using ih
      · by_cases hk2 : kv.1 = k
        · simp [objErase, List.filter, lookupV, hk, hk2, h, Ne.symm h]
        · simpa [objErase, List.filter, lookupV, hk, hk2] using ih

theorem lookupV_append_left (a b : Doc) {k : String} {v : Value}
    (h : lookupV a k = some v) : lookupV (a ++ b) k = some v := by
  induction a with
  | nil => simp [lookupV] at h
  | cons kv rest ih =>
      by_cases hk : kv.1 = k
      · simp_all [lookupV]
      · simp [lookupV, hk] at h ⊢
        exact ih h

theorem lookupV_append_right (a b : Doc) {k : String}
    (h : lookupV a k = none) : lookupV (a ++ b) k = lookupV b k := by
  induction a with
  | nil => simp
  | cons kv rest ih =>
      by_cases hk : kv.1 = k
      · simp [lookupV, hk] at h
      · simp [lookupV, hk] at h ⊢
        exact ih h

theorem mergeSet_lookup_of_not_mem (p : Doc) (d : Doc) {k : String}
    (h : ∀ kv ∈ p, kv.1 ≠ k) : lookupV (mergeSet d p) k = lookupV d k := by
  induction p generalizing d with
  | nil => rfl
  | cons kv rest ih =>
      have h1 : kv.1 ≠ k := h kv (by simp)
      have h2 : ∀ kv' ∈ rest, kv'.1 ≠ k := fun kv' hm => h kv' (by simp [hm])
      calc lookupV (mergeSet (objInsert d kv.1 kv.2) rest) k
          = lookupV (objInsert d kv.1 kv.2) k := ih _ h2
        _ = lookupV d k := lookupV_objInsert_ne d kv.2 h1

theorem lookupV_eq_none_of_keys (d : Doc) {k : String}
    (h : ∀ kv ∈ d, kv.1 ≠ k) : lookupV d k = none := by
  induction d with
  | nil => rfl
  | cons kv rest ih =>
      have h1 : kv.1 ≠ k := h kv (by simp)
      simp only [lookupV, h1, if_false]
      exact ih fun kv' hm => h kv' (by simp [hm])

theorem mergeSet_lookup_first (p : Doc) (d : Doc) {k : String} {v : Value}
    (hnd : (keys p).Nodup) (h : lookupV p k = some v) :
    lookupV (mergeSet d p) k = some v := by
  induction p generalizing d with
  | nil => simp [lookupV] at h
  | cons kv rest ih =>
      have hnd' : (kv.1 :: keys rest).Nodup := hnd
      have hnotin : kv.1 ∉ keys rest := (List.nodup_cons.mp hnd').1
      have hndrest : (keys rest).Nodup := (List.nodup_cons.mp hnd').2
      by_cases hk : kv.1 = k
      · have hv : kv.2 = v := by simpa [lookupV, hk] using h
        have hrest : ∀ kv' ∈ rest, kv'.1 ≠ k := by
          intro kv' hm he
          exact hnotin (by simpa [keys, hk, ← he] using List.mem_map_of_mem Prod.fst hm)
        calc lookupV (mergeSet (objInsert d kv.1 kv.2) rest) k
            = lookupV (objInsert d kv.1 kv.2) k :=
              mergeSet_lookup_of_not_mem rest _ hrest
          _ = some v := by rw [hk, lookupV_objInsert_self, hv]
      · simp [lookupV, hk] at h
        exact ih _ hndrest h

theorem objInsert_append_of_not_mem (d : Doc) {k : String} (v : Value)
    (h : k ∉ keys d) : objInsert d k v = d ++ [(k, v)] := by
  induction d with
  | nil => rfl
  | cons kv rest ih =>
      have h1 : kv.1 ≠ k := fun he => h (by simp [keys, he])
      have h2 : k ∉ keys rest := fun hm => h (by simp [keys] at hm ⊢; exact Or.inr hm)
      simp [objInsert, h1, ih h2]

theorem keys_objInsert_of_not_mem (d : Doc) {k : String} (v : Value)
    (h : k ∉ keys d) : keys (objInsert d k v) = keys d ++ [k] := by
  rw [objInsert_append_of_not_mem d v h]
  simp [keys]

theorem countDocsLimited_le (c : Collection) (q : Doc) (l : Nat) :
    countDocsLimited c q l ≤ l := by
  induction c generalizing l with
  | nil => simp [countDocsLimited]
  | cons d rest ih =>
      cases l with
      | zero => simp [countDocsLimited]
      | succ l' =>
          have hred : countDocsLimited (d :: rest) q (l' + 1)
              = if matchesQ q d then 1 + countDocsLimited rest q l'
                else countDocsLimited rest q (l' + 1) := rfl
          rw [hred]
          by_cases h : matchesQ q d
          · rw [if_pos h]
            have := ih l'
            omega
          · rw [if_neg h]
            exact ih (l' + 1)

theorem countDocsLimited_one_pos_iff (c : Collection) (q : Doc) :
    0 < countDocsLimited c q 1 ↔ 0 < countDocs c q := by
  induction c with
  | nil => simp [countDocsLimited, countDocs]
  | cons d rest ih =>
      by_cases h : matchesQ q d
      · simp [countDocsLimited, countDocs, h, List.countP_cons]
      · simpa [countDocsLimited, countDocs, h, List.countP_cons] using ih

/-- The `convertQuery` loop body, factored per binding. -/
theorem convertQuery_eq_map (query : Doc) (hnd : (keys query).Nodup) :
    MongoDriver.convertQuery query =
      query.map (fun kv =>
        if kv.1 = idKey then (idKey, convertIdValue kv.2) else kv) := by
  have hstep : ∀ (m : Doc), ∀ kv ∈ query,
      (if kv.1 = idKey then
        match kv.2 with
        | .str s =>
            if isValidObjectIdString s then
              objInsert m idKey (.oid s)
            else
              objInsert m idKey (.str s)
        | .num n => objInsert m idKey (.num n)
        | v => objInsert m idKey v
      else objInsert m kv.1 kv.2)
      = objInsert m
          (if kv.1 = idKey then idKey else kv.1)
          (if kv.1 = idKey then convertIdValue kv.2 else kv.2) := by
    intro m kv _
    by_cases h : kv.1 = idKey
    · cases kv.2 with
      | str s =>
          by_cases hv : isValidObjectIdString s <;> simp [h, convertIdValue, hv]
      | num n => simp [h, convertIdValue]
      | oid o => simp [h, convertIdValue]
      | boolV b => simp [h, convertIdValue]
      | null => simp [h, convertIdValue]
      | undef => simp [h, convertIdValue]
    · simp [h]
  have hgen : ∀ (q acc : Doc), (keys acc ++ keys q).Nodup →
      q.foldl (fun m kv =>
        objInsert m
          (if kv.1 = idKey then idKey else kv.1)
          (if kv.1 = idKey then convertIdValue kv.2 else kv.2)) acc
      = acc ++ q.map (fun kv =>
          if kv.1 = idKey then (idKey, convertIdValue kv.2) else kv) := by
    intro q
    induction q with
    | nil => intro acc _; simp
    | cons kv rest ih =>
        intro acc hn
        have hkeys : keys acc ++ keys (kv :: rest)
            = keys acc ++ kv.1 :: keys rest := rfl
        rw [hkeys] at hn
        have hknotacc : kv.1 ∉ keys acc := by
          intro hm
          rcases List.nodup_append.mp hn with ⟨_, _, hdisj⟩
          exact hdisj hm (by simp)
        have hk1 : (if kv.1 = idKey then idKey else kv.1) = kv.1 := by
          split <;> simp_all
        have hstep1 : objInsert acc
            (if kv.1 = idKey then idKey else kv.1)
            (if kv.1 = idKey then convertIdValue kv.2 else kv.2)
            = acc ++ [(kv.1, if kv.1 = idKey then convertIdValue kv.2 else kv.2)] := by
          rw [hk1]
          exact objInsert_append_of_not_mem acc _ hknotacc
        have hn2 : (keys (acc ++ [(kv.1, if kv.1 = idKey then convertIdValue kv.2 else kv.2)])
            ++ keys rest).Nodup := by
          have heq : keys (acc ++ [(kv.1, if kv.1 = idKey then convertIdValue kv.2 else kv.2)])
              ++ keys rest = keys acc ++ kv.1 :: keys rest := by
            simp [keys]
          rw [heq]
          exact hn
        calc (kv :: rest).foldl _ acc
            = rest.foldl _ (objInsert acc
                (if kv.1 = idKey then idKey else kv.1)
                (if kv.1 = idKey then convertIdValue kv.2 else kv.2)) := rfl
          _ = rest.foldl _ (acc ++ [(kv.1, if kv.1 = idKey then convertIdValue kv.2 else kv.2)]) := by
              rw [hstep1]
          _ = acc ++ [(kv.1, if kv.1 = idKey then convertIdValue kv.2 else kv.2)]
              ++ rest.map (fun kv =>
                  if kv.1 = idKey then (idKey, convertIdValue kv.2) else kv) := by
              rw [← ih _ hn2]
          _ = acc ++ (kv :: rest).map (fun kv =>
                if kv.1 = idKey then (idKey, convertIdValue kv.2) else kv) := by
              by_cases h : kv.1 = idKey <;> simp [h]
  rw [MongoDriver.convertQuery, List.foldl_ext _ _ [] (fun m kv hm => hstep m kv hm)]
  simpa using hgen query [] (by simpa [keys] using hnd)

/-! ### Claim theorems -/

/-- C4: `convertQuery` translates the identifier field by turning a string
that is a valid 24-hex ObjectId representation into a native identifier
object, passing a native-compatible numeric value through unchanged, and
passing any other identifier value through as a literal; every
non-identifier field passes through unchanged. -/
theorem convertQuery_field_translation (query : Doc)
    (hnd : (keys query).Nodup) :
    MongoDriver.convertQuery query =
      query.map (fun kv =>
        if kv.1 = idKey then (idKey, convertIdValue kv.2) else kv) ∧
    (∀ s, isValidObjectIdString s = true →
      convertIdValue (Value.str s) = Value.oid s) ∧
    (∀ s, isValidObjectIdString s = false →
      convertIdValue (Value.str s) = Value.str s) ∧
    (∀ n, convertIdValue (Value.num n) = Value.num n) ∧
    (∀ v, isTextual v = false → convertIdValue v = v) := by
  refine ⟨convertQuery_eq_map query hnd, ?_, ?_, ?_, ?_⟩
  · intro s hs; simp [convertIdValue, hs]
  · intro s hs; simp [convertIdValue, hs]
  · intro n; simp [convertIdValue]
  · intro v hv; cases v <;> simp_all [convertIdValue, isTextual]

theorem convertQuery_field_translation_witness :
    (keys [(idKey, Value.str "aaaaaaaaaaaaaaaaaaaaaaaa"),
           ("n", Value.num 3)]).Nodup ∧
    (MongoDriver.convertQuery
        [(idKey, Value.str "aaaaaaaaaaaaaaaaaaaaaaaa"), ("n", Value.num 3)] =
      [(idKey, Value.str "aaaaaaaaaaaaaaaaaaaaaaaa"),
       ("n", Value.num 3)].map (fun kv =>
        if kv.1 = idKey then (idKey, convertIdValue kv.2) else kv) ∧
    (∀ s, isValidObjectIdString s = true →
      convertIdValue (Value.str s) = Value.oid s) ∧
    (∀ s, isValidObjectIdString s = false →
      convertIdValue (Value.str s) = Value.str s) ∧
    (∀ n, convertIdValue (Value.num n) = Value.num n) ∧
    (∀ v, isTextual v = false → convertIdValue v = v)) :=
  ⟨by decide,
   convertQuery_field_translation
     [(idKey, Value.str "aaaaaaaaaaaaaaaaaaaaaaaa"), ("n", Value.num 3)]
     (by decide)⟩

/-- C5: `convertDocument` converts the identifier field to its canonical
textual representation exactly when it is a native identifier object,
leaves it unchanged otherwise, and passes every other field through
unchanged. -/
theorem convertDocument_id_normalization (doc : Doc) (v : Value)
    (h : lookupV doc idKey = some v) :
    (∀ hx, v = Value.oid hx →
      lookupV (MongoDriver.convertDocument doc) idKey = some (Value.str hx)) ∧
    (isOidValue v = false →
      lookupV (MongoDriver.convertDocument doc) idKey = some v) ∧
    (∀ k, k ≠ idKey →
      lookupV (MongoDriver.convertDocument doc) k = lookupV doc k) := by
  refine ⟨?_, ?_, ?_⟩
  · intro hx hv
    subst hv
    simp [MongoDriver.convertDocument, h, lookupV]
  · intro hv
    cases v <;> simp_all [MongoDriver.convertDocument, lookupV, isOidValue]
  · intro k hk
    have hk' : idKey ≠ k := fun he => hk he.symm
    calc lookupV (MongoDriver.convertDocument doc) k
        = lookupV (objErase doc idKey) k := by
          simp [MongoDriver.convertDocument, lookupV, hk']
      _ = lookupV doc k := lookupV_objErase_ne doc hk'

theorem convertDocument_id_normalization_witness :
    lookupV [("x", Value.num 1), (idKey, Value.oid "aaaaaaaaaaaaaaaaaaaaaaaa")]
        idKey = some (Value.oid "aaaaaaaaaaaaaaaaaaaaaaaa") ∧
    ((∀ hx, Value.oid "aaaaaaaaaaaaaaaaaaaaaaaa" = Value.oid hx →
      lookupV (MongoDriver.convertDocument
          [("x", Value.num 1), (idKey, Value.oid "aaaaaaaaaaaaaaaaaaaaaaaa")])
        idKey = some (Value.str hx)) ∧
    (isOidValue (Value.oid "aaaaaaaaaaaaaaaaaaaaaaaa") = false →
      lookupV (MongoDriver.convertDocument
          [("x", Value.num 1), (idKey, Value.oid "aaaaaaaaaaaaaaaaaaaaaaaa")])
        idKey = some (Value.oid "aaaaaaaaaaaaaaaaaaaaaaaa")) ∧
    (∀ k, k ≠ idKey →
      lookupV (MongoDriver.convertDocument
          [("x", Value.num 1), (idKey, Value.oid "aaaaaaaaaaaaaaaaaaaaaaaa")]) k
        = lookupV [("x", Value.num 1),
            (idKey, Value.oid "aaaaaaaaaaaaaaaaaaaaaaaa")] k)) :=
  ⟨by decide,
   convertDocument_id_normalization
     [("x", Value.num 1), (idKey, Value.oid "aaaaaaaaaaaaaaaaaaaaaaaa")]
     (Value.oid "aaaaaaaaaaaaaaaaaaaaaaaa") (by decide)⟩

/-- C7: over any fixed driver state, `exists` agrees with `count > 0`
(including both failing identically when not connected), and the existence
check it issues is bounded: the limited count it asks the store for never
examines past the first match (its result never exceeds the limit of one). -/
theorem exists_iff_count_pos (st : DriverState) (query : Doc) :
    MongoDriver.existsQ st query
      = (MongoDriver.count st query).map (fun n => decide (0 < n)) ∧
    (∀ c q, countDocsLimited c q 1 ≤ 1) := by
  constructor
  · cases hc : st.collection with
    | none =>
        simp [MongoDriver.existsQ, MongoDriver.count, MongoDriver.ensureConnected,
          hc, Except.map, Except.bind, Bind.bind]
    | some c =>
        simp [MongoDriver.existsQ, MongoDriver.count, MongoDriver.ensureConnected,
          hc, Except.map, Except.bind, Bind.bind, decide_eq_decide,
          countDocsLimited_one_pos_iff]
  · intro c q
    exact countDocsLimited_le c q 1

/-- The driver state resulting from a unit-returning operation, `st` when it
threw. -/
def stateAfterU (st : DriverState) (r : Except String DriverState) :
    DriverState :=
  match r with
  | .ok st2 => st2
  | .error _ => st

/-- Every operation gated by `ensureConnected` fails with the
"not connected" message when no collection handle is bound. -/
theorem ops_error_of_none (st : DriverState) (h : st.collection = none) :
    (∀ data now freshId,
      MongoDriver.set st data now freshId = .error notConnectedMsg) ∧
    (∀ q, MongoDriver.get st q = .error notConnectedMsg) ∧
    (∀ q, MongoDriver.getOne st q = .error notConnectedMsg) ∧
    (∀ q data now,
      MongoDriver.update st q data now = .error notConnectedMsg) ∧
    (∀ q, MongoDriver.delete st q = .error notConnectedMsg) ∧
    (∀ q, MongoDriver.existsQ st q = .error notConnectedMsg) ∧
    (∀ q, MongoDriver.count st q = .error notConnectedMsg) ∧
    (∀ r, MongoDriver.createIndex st r = .error notConnectedMsg) ∧
    (∀ n, MongoDriver.dropIndex st n = .error notConnectedMsg) ∧
    (∀ r, MongoDriver.listIndexes st r = .error notConnectedMsg) ∧
    (∀ r, MongoDriver.aggregate st r = .error notConnectedMsg) ∧
    (MongoDriver.clear st = .error notConnectedMsg) ∧
    (MongoDriver.drop st = .error notConnectedMsg) := by
  refine ⟨?_, ?_, ?_, ?_, ?_, ?_, ?_, ?_, ?_, ?_, ?_, ?_, ?_⟩ <;>
    intros <;>
    simp [MongoDriver.set, MongoDriver.get, MongoDriver.getOne,
      MongoDriver.update, MongoDriver.delete, MongoDriver.existsQ,
      MongoDriver.count, MongoDriver.createIndex, MongoDriver.dropIndex,
      MongoDriver.listIndexes, MongoDriver.aggregate, MongoDriver.clear,
      MongoDriver.drop, MongoDriver.ensureConnected, h,
      Except.bind, Bind.bind]

/-- C8: every data operation invoked while the connection has not been
established fails locally with the "not connected" message (so never with a
native store error: no store call is reached), and the driver state — hence
the store contents it is bound to — is unchanged by the failed call. -/
theorem not_connected_fails_fast (st : DriverState)
    (h : st.collection = none) :
    ((∀ data now freshId,
      MongoDriver.set st data now freshId = .error notConnectedMsg) ∧
    (∀ q, MongoDriver.get st q = .error notConnectedMsg) ∧
    (∀ q, MongoDriver.getOne st q = .error notConnectedMsg) ∧
    (∀ q data now,
      MongoDriver.update st q data now = .error notConnectedMsg) ∧
    (∀ q, MongoDriver.delete st q = .error notConnectedMsg) ∧
    (∀ q, MongoDriver.existsQ st q = .error notConnectedMsg) ∧
    (∀ q, MongoDriver.count st q = .error notConnectedMsg) ∧
    (∀ r, MongoDriver.createIndex st r = .error notConnectedMsg) ∧
    (∀ n, MongoDriver.dropIndex st n = .error notConnectedMsg) ∧
    (∀ r, MongoDriver.listIndexes st r = .error notConnectedMsg) ∧
    (∀ r, MongoDriver.aggregate st r = .error notConnectedMsg) ∧
    (MongoDriver.clear st = .error notConnectedMsg) ∧
    (MongoDriver.drop st = .error notConnectedMsg)) ∧
    (∀ data now freshId,
      stateAfter st (MongoDriver.set st data now freshId) = st) ∧
    (∀ q data now,
      stateAfter st (MongoDriver.update st q data now) = st) ∧
    (∀ q, stateAfter st (MongoDriver.delete st q) = st) ∧
    (stateAfterU st (MongoDriver.clear st) = st) ∧
    (stateAfterU st (MongoDriver.drop st) = st) := by
  have hops := ops_error_of_none st h
  refine ⟨hops, ?_, ?_, ?_, ?_, ?_⟩
  · intro data now freshId
    rw [hops.1 data now freshId]
    rfl
  · intro q data now
    rw [hops.2.2.2.1 q data now]
    rfl
  · intro q
    rw [hops.2.2.2.2.1 q]
    rfl
  · rw [hops.2.2.2.2.2.2.2.2.2.2.2.1]
    rfl
  · rw [hops.2.2.2.2.2.2.2.2.2.2.2.2]
    rfl

theorem not_connected_fails_fast_witness :
    (DriverState.mk none none).collection = none ∧
    (MongoDriver.get (DriverState.mk none none) [("a", Value.num 1)]
      = .error notConnectedMsg) ∧
    (MongoDriver.set (DriverState.mk none none) [("a", Value.num 1)] "T" "f"
      = .error notConnectedMsg) :=
  ⟨rfl,
   ((not_connected_fails_fast (DriverState.mk none none) rfl).1.2.1
     [("a", Value.num 1)]),
   ((not_connected_fails_fast (DriverState.mk none none) rfl).1.1
     [("a", Value.num 1)] "T" "f")⟩

/-- C9: `disconnect` clears the bound database and collection handles,
returning the adapter to the uninitialized state, and afterwards every data
operation fails with the "not connected" message rather than crashing or
reaching the store. -/
theorem disconnect_clears_and_gates (st : DriverState) :
    (MongoDriver.disconnect st).db = none ∧
    (MongoDriver.disconnect st).collection = none ∧
    (∀ data now freshId,
      MongoDriver.set (MongoDriver.disconnect st) data now freshId
        = .error notConnectedMsg) ∧
    (∀ q, MongoDriver.get (MongoDriver.disconnect st) q
        = .error notConnectedMsg) ∧
    (∀ q, MongoDriver.getOne (MongoDriver.disconnect st) q
        = .error notConnectedMsg) ∧
    (∀ q data now,
      MongoDriver.update (MongoDriver.disconnect st) q data now
        = .error notConnectedMsg) ∧
    (∀ q, MongoDriver.delete (MongoDriver.disconnect st) q
        = .error notConnectedMsg) ∧
    (∀ q, MongoDriver.existsQ (MongoDriver.disconnect st) q
        = .error notConnectedMsg) ∧
    (∀ q, MongoDriver.count (MongoDriver.disconnect st) q
        = .error notConnectedMsg) ∧
    (∀ r, MongoDriver.createIndex (MongoDriver.disconnect st) r
        = .error notConnectedMsg) ∧
    (∀ n, MongoDriver.dropIndex (MongoDriver.disconnect st) n
        = .error notConnectedMsg) ∧
    (∀ r, MongoDriver.listIndexes (MongoDriver.disconnect st) r
        = .error notConnectedMsg) ∧
    (∀ r, MongoDriver.aggregate (MongoDriver.disconnect st) r
        = .error notConnectedMsg) ∧
    (MongoDriver.clear (MongoDriver.disconnect st) = .error notConnectedMsg) ∧
    (MongoDriver.drop (MongoDriver.disconnect st) = .error notConnectedMsg) := by
  have hops := ops_error_of_none (MongoDriver.disconnect st) rfl
  exact ⟨rfl, rfl, hops.1, hops.2.1, hops.2.2.1, hops.2.2.2.1,
    hops.2.2.2.2.1, hops.2.2.2.2.2.1, hops.2.2.2.2.2.2.1,
    hops.2.2.2.2.2.2.2.1, hops.2.2.2.2.2.2.2.2.1,
    hops.2.2.2.2.2.2.2.2.2.1, hops.2.2.2.2.2.2.2.2.2.2.1,
    hops.2.2.2.2.2.2.2.2.2.2.2.1, hops.2.2.2.2.2.2.2.2.2.2.2.2⟩

theorem mem_keys_objInsert {d : Doc} {k x : String} {v : Value}
    (h : x ∈ keys (objInsert d k v)) : x ∈ keys d ∨ x = k := by
  induction d with
  | nil => simpa [objInsert, keys] using h
  | cons kv rest ih =>
      by_cases hk : kv.1 = k
      · rcases (by simpa [objInsert, hk, keys] using h) with h1 | h1
        · exact Or.inr h1
        · exact Or.inl (by simp [keys, h1])
      · rcases (by simpa [objInsert, hk, keys] using h) with h1 | h1
        · exact Or.inl (by simp [keys, h1])
        · rcases ih (by simpa [keys] using h1) with h2 | h2
          · exact Or.inl (by simp [keys]; exact Or.inr (by simpa [keys] using h2))
          · exact Or.inr h2

theorem keys_nodup_objInsert (d : Doc) (k : String) (v : Value)
    (h : (keys d).Nodup) : (keys (objInsert d k v)).Nodup := by
  induction d with
  | nil => simp [objInsert, keys]
  | cons kv rest ih =>
      have h' : (kv.1 :: keys rest).Nodup := h
      have h1 : kv.1 ∉ keys rest := (List.nodup_cons.mp h').1
      have h2 : (keys rest).Nodup := (List.nodup_cons.mp h').2
      by_cases hk : kv.1 = k
      · have : keys (objInsert (kv :: rest) k v) = k :: keys rest := by
          simp [objInsert, hk, keys]
        rw [this]
        exact List.nodup_cons.mpr ⟨hk ▸ h1, h2⟩
      · have : keys (objInsert (kv :: rest) k v) = kv.1 :: keys (objInsert rest k v) := by
          simp [objInsert, hk, keys]
        rw [this]
        refine List.nodup_cons.mpr ⟨?_, ih h2⟩
        intro hm
        rcases mem_keys_objInsert hm with h3 | h3
        · exact h1 h3
        · exact hk h3

theorem keys_nodup_objErase (d : Doc) (k : String)
    (h : (keys d).Nodup) : (keys (objErase d k)).Nodup := by
  have hsub : List.Sublist (objErase d k) d := List.filter_sublist d
  exact (hsub.map Prod.fst).nodup h

theorem lookupV_append_single_ne (a : Doc) {k0 k : String} (v0 : Value)
    (h : k0 ≠ k) : lookupV (a ++ [(k0, v0)]) k = lookupV a k := by
  cases hv : lookupV a k with
  | some v => exact lookupV_append_left a _ hv
  | none =>
      rw [lookupV_append_right a _ hv]
      simp [lookupV, h]

theorem forall₂_map_self {r : Doc → Doc → Prop} {f : Doc → Doc}
    (c : Collection) (h : ∀ d ∈ c, r d (f d)) :
    List.Forall₂ r c (c.map f) := by
  induction c with
  | nil => simp
  | cons d rest ih =>
      exact List.Forall₂.cons (h d (by simp))
        (ih fun d' hm => h d' (by simp [hm]))

theorem lookupV_convertDocument_id (doc : Doc) :
    lookupV (MongoDriver.convertDocument doc) idKey
      = some (match (lookupV doc idKey).getD .undef with
          | Value.oid hx => Value.str hx
          | v => v) := by
  simp [MongoDriver.convertDocument, lookupV]

theorem isOidValue_convertDocument_id (doc : Doc) :
    ∃ v, lookupV (MongoDriver.convertDocument doc) idKey = some v ∧
      isOidValue v = false := by
  refine ⟨_, lookupV_convertDocument_id doc, ?_⟩
  cases (lookupV doc idKey).getD .undef <;> simp [isOidValue]

/-- Reduction of `update` under a bound collection handle. -/
theorem update_eq (st : DriverState) (c : Collection) (query data : Doc)
    (now : String) (hc : st.collection = some c) :
    MongoDriver.update st query data now =
      .ok (⟨st.db, some ((updateMany c (MongoDriver.convertQuery query)
            (updatePayload data now)).1)⟩,
          (updateMany c (MongoDriver.convertQuery query)
            (updatePayload data now)).2) := by
  simp [MongoDriver.update, MongoDriver.ensureConnected, hc, Except.bind,
    Bind.bind, updatePayload, updateMany]

/-- The `$set` payload never carries the identifier field. -/
theorem updatePayload_no_id (data : Doc) (now : String) :
    ∀ kv ∈ updatePayload data now, kv.1 ≠ idKey :=
  mem_objErase_ne _ idKey

/-- The `$set` payload carries the call-time update timestamp. -/
theorem updatePayload_updatedAt (data : Doc) (now : String) :
    lookupV (updatePayload data now) updatedAtKey = some (Value.str now) := by
  unfold updatePayload
  rw [lookupV_objErase_ne _ (by decide), lookupV_objInsert_self]

theorem updatePayload_keys_nodup (data : Doc) (now : String)
    (hnd : (keys data).Nodup) : (keys (updatePayload data now)).Nodup :=
  keys_nodup_objErase _ idKey (keys_nodup_objInsert _ _ _ hnd)

/-- C3: `update` translates the query, strips the identifier from the patch
payload, sets the payload's update timestamp to the call-time clock reading,
applies a `$set` partial-field merge (untouched fields are preserved, so it
is not a full replacement) to every record matching the translated query,
and returns the store's modified-count. -/
theorem update_set_merge_spec (st : DriverState) (c : Collection)
    (query data : Doc) (now : String) (hc : st.collection = some c) :
    MongoDriver.update st query data now =
      .ok (⟨st.db, some ((updateMany c (MongoDriver.convertQuery query)
            (updatePayload data now)).1)⟩,
          (updateMany c (MongoDriver.convertQuery query)
            (updatePayload data now)).2) ∧
    (∀ kv ∈ updatePayload data now, kv.1 ≠ idKey) ∧
    lookupV (updatePayload data now) updatedAtKey = some (Value.str now) ∧
    (updateMany c (MongoDriver.convertQuery query) (updatePayload data now)).1
      = c.map (fun d => if matchesQ (MongoDriver.convertQuery query) d
          then mergeSet d (updatePayload data now) else d) ∧
    (∀ d k, (∀ kv ∈ updatePayload data now, kv.1 ≠ k) →
      lookupV (mergeSet d (updatePayload data now)) k = lookupV d k) ∧
    (updateMany c (MongoDriver.convertQuery query) (updatePayload data now)).2
      = c.countP (fun d => matchesQ (MongoDriver.convertQuery query) d
          && mergeSet d (updatePayload data now) ≠ d) :=
  ⟨update_eq st c query data now hc,
   updatePayload_no_id data now,
   updatePayload_updatedAt data now,
   rfl,
   fun d _k hk => mergeSet_lookup_of_not_mem _ d hk,
   rfl⟩

theorem update_set_merge_spec_witness :
    (MongoDriver.connect
        [[(idKey, Value.oid "aaaaaaaaaaaaaaaaaaaaaaaa"),
          ("name", Value.str "a")]]).collection
      = some [[(idKey, Value.oid "aaaaaaaaaaaaaaaaaaaaaaaa"),
          ("name", Value.str "a")]] ∧
    MongoDriver.update
        (MongoDriver.connect
          [[(idKey, Value.oid "aaaaaaaaaaaaaaaaaaaaaaaa"),
            ("name", Value.str "a")]])
        [("name", Value.str "a")] [("x", Value.num 1)] "t1" =
      .ok (⟨some (), some ((updateMany
            [[(idKey, Value.oid "aaaaaaaaaaaaaaaaaaaaaaaa"),
              ("name", Value.str "a")]]
            (MongoDriver.convertQuery [("name", Value.str "a")])
            (updatePayload [("x", Value.num 1)] "t1")).1)⟩,
          (updateMany
            [[(idKey, Value.oid "aaaaaaaaaaaaaaaaaaaaaaaa"),
              ("name", Value.str "a")]]
            (MongoDriver.convertQuery [("name", Value.str "a")])
            (updatePayload [("x", Value.num 1)] "t1")).2) :=
  ⟨rfl,
   (update_set_merge_spec
     (MongoDriver.connect
       [[(idKey, Value.oid "aaaaaaaaaaaaaaaaaaaaaaaa"),
         ("name", Value.str "a")]])
     [[(idKey, Value.oid "aaaaaaaaaaaaaaaaaaaaaaaa"),
       ("name", Value.str "a")]]
     [("name", Value.str "a")] [("x", Value.num 1)] "t1" rfl).1⟩

/-- C2 (amended): on `update`, the identifier is set by the adapter alone —
any identifier field in the patch is discarded, so no matched record's
identifier changes — and any caller-supplied update-timestamp field is
overwritten with the call-time clock reading.  (The creation-timestamp
field, by contrast, is not protected: a patch carrying `_createdAt` is
applied as given, see the counterexample.) -/
theorem update_discards_id_overwrites_updatedAt (st : DriverState)
    (c : Collection) (query data : Doc) (now : String)
    (hc : st.collection = some c) (hnd : (keys data).Nodup) :
    ∃ st2 m, MongoDriver.update st query data now = .ok (st2, m) ∧
      ∃ c2, st2.collection = some c2 ∧
        List.Forall₂ (fun d d2 =>
          lookupV d2 idKey = lookupV d idKey ∧
          (matchesQ (MongoDriver.convertQuery query) d = true →
            lookupV d2 updatedAtKey = some (Value.str now))) c c2 := by
  refine ⟨_, _, update_eq st c query data now hc, _, rfl, ?_⟩
  apply forall₂_map_self
  intro d _
  by_cases hm : matchesQ (MongoDriver.convertQuery query) d
  · refine ⟨?_, fun _ => ?_⟩
    · simp only [hm, if_true]
      exact mergeSet_lookup_of_not_mem _ d (updatePayload_no_id data now)
    · simp only [hm, if_true]
      exact mergeSet_lookup_first _ d
        (updatePayload_keys_nodup data now hnd)
        (updatePayload_updatedAt data now)
  · refine ⟨?_, fun hm' => absurd hm' hm⟩
    simp [hm]

theorem update_discards_id_overwrites_updatedAt_witness :
    ((MongoDriver.connect
        [[(idKey, Value.oid "aaaaaaaaaaaaaaaaaaaaaaaa"),
          ("name", Value.str "a")]]).collection
      = some [[(idKey, Value.oid "aaaaaaaaaaaaaaaaaaaaaaaa"),
          ("name", Value.str "a")]] ∧
     (keys [(idKey, Value.str "bbbbbbbbbbbbbbbbbbbbbbbb"),
            ("name", Value.str "b")]).Nodup) ∧
    (∃ st2 m, MongoDriver.update
        (MongoDriver.connect
          [[(idKey, Value.oid "aaaaaaaaaaaaaaaaaaaaaaaa"),
            ("name", Value.str "a")]])
        [("name", Value.str "a")]
        [(idKey, Value.str "bbbbbbbbbbbbbbbbbbbbbbbb"),
         ("name", Value.str "b")] "t1" = .ok (st2, m) ∧
      ∃ c2, st2.collection = some c2 ∧
        List.Forall₂ (fun d d2 =>
          lookupV d2 idKey = lookupV d idKey ∧
          (matchesQ (MongoDriver.convertQuery [("name", Value.str "a")]) d
              = true →
            lookupV d2 updatedAtKey = some (Value.str "t1")))
          [[(idKey, Value.oid "aaaaaaaaaaaaaaaaaaaaaaaa"),
            ("name", Value.str "a")]] c2) :=
  ⟨⟨rfl, by decide⟩,
   update_discards_id_overwrites_updatedAt
     (MongoDriver.connect
       [[(idKey, Value.oid "aaaaaaaaaaaaaaaaaaaaaaaa"),
         ("name", Value.str "a")]])
     [[(idKey, Value.oid "aaaaaaaaaaaaaaaaaaaaaaaa"),
       ("name", Value.str "a")]]
     [("name", Value.str "a")]
     [(idKey, Value.str "bbbbbbbbbbbbbbbbbbbbbbbb"), ("name", Value.str "b")]
     "t1" rfl (by decide)⟩

/-- C2 counterexample: a patch carrying the creation-timestamp field is
applied to the matched record as given — the stored `_createdAt` becomes the
caller's value "EVIL", distinct from both its previous value and the
call-time clock reading — so the management timestamps are not, in general,
"never taken from the caller". -/
theorem update_takes_caller_createdAt_cex :
    MongoDriver.update
        (MongoDriver.connect
          [[(idKey, Value.oid "aaaaaaaaaaaaaaaaaaaaaaaa"),
            ("name", Value.str "a"),
            (createdAtKey, Value.str "t0"),
            (updatedAtKey, Value.str "t0")]])
        [("name", Value.str "a")]
        [(createdAtKey, Value.str "EVIL")] "t1" =
      .ok (⟨some (), some
          [[(idKey, Value.oid "aaaaaaaaaaaaaaaaaaaaaaaa"),
            ("name", Value.str "a"),
            (createdAtKey, Value.str "EVIL"),
            (updatedAtKey, Value.str "t1")]]⟩, 1) ∧
    lookupV [(idKey, Value.oid "aaaaaaaaaaaaaaaaaaaaaaaa"),
            ("name", Value.str "a"),
            (createdAtKey, Value.str "EVIL"),
            (updatedAtKey, Value.str "t1")] createdAtKey
      = some (Value.str "EVIL") ∧
    Value.str "EVIL" ≠ Value.str "t0" ∧
    Value.str "EVIL" ≠ Value.str "t1" :=
  ⟨rfl, rfl, by decide, by decide⟩

/-- The record `set` builds before inserting: the caller's data spread with
both management timestamps stamped from the call-time clock reading. -/
def setRecord (data : Doc) (now : String) : Doc :=
  objInsert (objInsert data createdAtKey (.str now)) updatedAtKey (.str now)

theorem setRecord_createdAt (data : Doc) (now : String) :
    lookupV (setRecord data now) createdAtKey = some (Value.str now) := by
  unfold setRecord
  rw [lookupV_objInsert_ne _ _ (by decide), lookupV_objInsert_self]

theorem setRecord_updatedAt (data : Doc) (now : String) :
    lookupV (setRecord data now) updatedAtKey = some (Value.str now) :=
  lookupV_objInsert_self _ _ _

theorem setRecord_id (data : Doc) (now : String) :
    lookupV (setRecord data now) idKey = lookupV data idKey := by
  unfold setRecord
  rw [lookupV_objInsert_ne _ _ (by decide), lookupV_objInsert_ne _ _ (by decide)]

theorem setRecord_other (data : Doc) (now : String) {k : String}
    (h1 : k ≠ createdAtKey) (h2 : k ≠ updatedAtKey) :
    lookupV (setRecord data now) k = lookupV data k := by
  unfold setRecord
  rw [lookupV_objInsert_ne _ _ (Ne.symm h2), lookupV_objInsert_ne _ _ (Ne.symm h1)]

/-- Reduction of `set` under a bound collection handle. -/
theorem set_eq (st : DriverState) (c : Collection) (data : Doc)
    (now freshId : String) (hc : st.collection = some c) :
    MongoDriver.set st data now freshId =
      .ok (⟨st.db, some ((insertOne c (setRecord data now) freshId).1)⟩,
           objInsert (setRecord data now) idKey
             (.str (toStringV ((insertOne c (setRecord data now) freshId).2)))) := by
  cases hins : insertOne c (setRecord data now) freshId with
  | mk c2 iid =>
      unfold setRecord at hins
      simp [MongoDriver.set, MongoDriver.ensureConnected, hc, Except.bind,
        Bind.bind, setRecord, hins]

theorem lookupV_serializeDoc (d : Doc) (k : String) :
    lookupV (serializeDoc d) k = (lookupV d k).map serializeValue := by
  induction d with
  | nil => rfl
  | cons kv rest ih =>
      by_cases hk : kv.1 = k
      · simp [serializeDoc, lookupV, hk]
      · simpa [serializeDoc, lookupV, hk] using ih

theorem serializeValue_of_ne_undef {v : Value} (h : v ≠ Value.undef) :
    serializeValue v = v := by
  cases v <;> simp_all [serializeValue]

theorem serializeValue_of_not_nullish {v : Value} (h : isNullish v = false) :
    serializeValue v = v := by
  cases v <;> simp_all [serializeValue, isNullish]

theorem insertOne_of_id (c : Collection) (data : Doc) (now freshId : String)
    {v : Value} (hv : lookupV data idKey = some v)
    (hnn : isNullish v = false) :
    insertOne c (setRecord data now) freshId
      = (c ++ [serializeDoc (setRecord data now)], v) := by
  simp [insertOne, setRecord_id, hv, hnn]

theorem insertOne_of_nullish_id (c : Collection) (data : Doc)
    (now freshId : String) {v : Value} (hv : lookupV data idKey = some v)
    (hnn : isNullish v = true) :
    insertOne c (setRecord data now) freshId
      = (c ++ [serializeDoc (objInsert (setRecord data now) idKey
            (Value.oid freshId))], Value.oid freshId) := by
  simp [insertOne, setRecord_id, hv, hnn]

theorem insertOne_of_no_id (c : Collection) (data : Doc) (now freshId : String)
    (hv : lookupV data idKey = none) :
    insertOne c (setRecord data now) freshId
      = (c ++ [serializeDoc (objInsert (setRecord data now) idKey
            (Value.oid freshId))], Value.oid freshId) := by
  simp [insertOne, setRecord_id, hv]

/-- C1 (amended): the record returned by `set` carries equal creation and
update timestamps, both the call-time ISO-8601 clock reading, and a textual
identifier; the identifier is non-empty provided the generated ObjectId hex
is non-empty (it always is: 24 characters) and any caller-supplied
identifier has non-empty textual form (a caller may defeat this by passing
`_id: ""`, see the counterexample). -/
theorem set_returns_timestamps_and_textual_id (st : DriverState)
    (c : Collection) (data : Doc) (now freshId : String)
    (hc : st.collection = some c)
    (hfresh : freshId ≠ "")
    (hid : ∀ v, lookupV data idKey = some v → toStringV v ≠ "") :
    ∃ st2 ret, MongoDriver.set st data now freshId = .ok (st2, ret) ∧
      lookupV ret createdAtKey = some (Value.str now) ∧
      lookupV ret updatedAtKey = some (Value.str now) ∧
      ∃ s, lookupV ret idKey = some (Value.str s) ∧ s ≠ "" := by
  refine ⟨_, _, set_eq st c data now freshId hc, ?_, ?_, ?_⟩
  · rw [lookupV_objInsert_ne _ _ (by decide : idKey ≠ createdAtKey)]
    exact setRecord_createdAt data now
  · rw [lookupV_objInsert_ne _ _ (by decide : idKey ≠ updatedAtKey)]
    exact setRecord_updatedAt data now
  · refine ⟨toStringV ((insertOne c (setRecord data now) freshId).2),
      lookupV_objInsert_self _ _ _, ?_⟩
    cases hv : lookupV data idKey with
    | some v =>
        cases hnn : isNullish v with
        | false =>
            rw [insertOne_of_id c data now freshId hv hnn]
            exact hid v hv
        | true =>
            rw [insertOne_of_nullish_id c data now freshId hv hnn]
            simpa [toStringV] using hfresh
    | none =>
        rw [insertOne_of_no_id c data now freshId hv]
        simpa [toStringV] using hfresh

theorem set_returns_timestamps_and_textual_id_witness :
    ((MongoDriver.connect []).collection = some [] ∧
     ("aaaaaaaaaaaaaaaaaaaaaaaa" : String) ≠ "") ∧
    (∃ st2 ret, MongoDriver.set (MongoDriver.connect [])
        [("name", Value.str "a")] "2024-01-01T00:00:00.000Z"
        "aaaaaaaaaaaaaaaaaaaaaaaa" = .ok (st2, ret) ∧
      lookupV ret createdAtKey
        = some (Value.str "2024-01-01T00:00:00.000Z") ∧
      lookupV ret updatedAtKey
        = some (Value.str "2024-01-01T00:00:00.000Z") ∧
      ∃ s, lookupV ret idKey = some (Value.str s) ∧ s ≠ "") :=
  ⟨⟨rfl, by decide⟩,
   set_returns_timestamps_and_textual_id (MongoDriver.connect []) []
     [("name", Value.str "a")] "2024-01-01T00:00:00.000Z"
     "aaaaaaaaaaaaaaaaaaaaaaaa" rfl (by decide)
     (fun v hv => by simp [lookupV, idKey] at hv)⟩

/-- C1 counterexample: a record whose caller-supplied identifier is the
empty string is inserted as-is and `set` returns that empty string as the
identifier — so the returned identifier is not always non-empty. -/
theorem set_empty_id_cex :
    MongoDriver.set (MongoDriver.connect []) [(idKey, Value.str "")] "T"
        "aaaaaaaaaaaaaaaaaaaaaaaa" =
      .ok (⟨some (), some [[(idKey, Value.str ""),
            (createdAtKey, Value.str "T"), (updatedAtKey, Value.str "T")]]⟩,
          [(idKey, Value.str ""), (createdAtKey, Value.str "T"),
            (updatedAtKey, Value.str "T")]) ∧
    lookupV [(idKey, Value.str ""), (createdAtKey, Value.str "T"),
        (updatedAtKey, Value.str "T")] idKey = some (Value.str "") ∧
    ("" : String).length = 0 :=
  ⟨rfl, rfl, rfl⟩

/-- C10 (amended): `set` inserts every caller field unchanged except that
the two management timestamp fields are overwritten with the call-time clock
reading (see the counterexample for a caller-supplied `_createdAt`), a
missing or null-ish (`null`/`undefined`) identifier is replaced with a
freshly generated native identifier, and `undefined` field values are
stored as `null` by BSON serialization; any other caller-supplied
identifier is inserted as given; and the returned record equals the
inserted document up to that serialization, except that its identifier is
the textual form of the store's inserted-identifier result. -/
theorem set_insertion_shape (st : DriverState) (c : Collection) (data : Doc)
    (now freshId : String) (hc : st.collection = some c) :
    ∃ ret stored, MongoDriver.set st data now freshId
        = .ok (⟨st.db, some (c ++ [stored])⟩, ret) ∧
      (∀ k v, k ≠ createdAtKey → k ≠ updatedAtKey → k ≠ idKey →
        v ≠ Value.undef → lookupV data k = some v →
        lookupV stored k = some v) ∧
      (∀ v, isNullish v = false → lookupV data idKey = some v →
        lookupV stored idKey = some v) ∧
      ((lookupV data idKey = none ∨
        (∃ v, lookupV data idKey = some v ∧ isNullish v = true)) →
        lookupV stored idKey = some (Value.oid freshId)) ∧
      ∃ iv, lookupV stored idKey = some iv ∧
        lookupV ret idKey = some (Value.str (toStringV iv)) ∧
        (∀ k, k ≠ idKey →
          (lookupV ret k).map serializeValue = lookupV stored k) := by
  cases hv : lookupV data idKey with
  | some v =>
      cases hnn : isNullish v with
      | false =>
          refine ⟨objInsert (setRecord data now) idKey (.str (toStringV v)),
            serializeDoc (setRecord data now), ?_, ?_, ?_, ?_, v, ?_, ?_, ?_⟩
          · rw [set_eq st c data now freshId hc,
              insertOne_of_id c data now freshId hv hnn]
          · intro k v' h1 h2 _h3 hu hk
            rw [lookupV_serializeDoc, setRecord_other data now h1 h2, hk]
            simp [serializeValue_of_ne_undef hu]
          · intro v0 _ hk0
            injection hk0 with he
            rw [lookupV_serializeDoc, setRecord_id, hv, ← he]
            simp [serializeValue_of_not_nullish hnn]
          · intro hcase
            rcases hcase with hnone | ⟨v0, hv0, hnn0⟩
            · exact absurd hnone (by simp)
            · injection hv0 with he
              rw [← he] at hnn0
              rw [hnn0] at hnn
              exact absurd hnn (by simp)
          · rw [lookupV_serializeDoc, setRecord_id, hv]
            simp [serializeValue_of_not_nullish hnn]
          · exact lookupV_objInsert_self _ _ _
          · intro k hk
            rw [lookupV_objInsert_ne _ _ (Ne.symm hk), lookupV_serializeDoc]
      | true =>
          refine ⟨objInsert (setRecord data now) idKey
              (.str (toStringV (Value.oid freshId))),
            serializeDoc (objInsert (setRecord data now) idKey
              (Value.oid freshId)), ?_, ?_, ?_, ?_,
            Value.oid freshId, ?_, ?_, ?_⟩
          · rw [set_eq st c data now freshId hc,
              insertOne_of_nullish_id c data now freshId hv hnn]
          · intro k v' h1 h2 h3 hu hk
            rw [lookupV_serializeDoc, lookupV_objInsert_ne _ _ (Ne.symm h3),
              setRecord_other data now h1 h2, hk]
            simp [serializeValue_of_ne_undef hu]
          · intro v0 hnn0 hk0
            injection hk0 with he
            rw [← he] at hnn0
            rw [hnn0] at hnn
            exact absurd hnn (by simp)
          · intro _
            rw [lookupV_serializeDoc, lookupV_objInsert_self]
            rfl
          · rw [lookupV_serializeDoc, lookupV_objInsert_self]
            rfl
          · exact lookupV_objInsert_self _ _ _
          · intro k hk
            rw [lookupV_objInsert_ne _ _ (Ne.symm hk), lookupV_serializeDoc,
              lookupV_objInsert_ne _ _ (Ne.symm hk)]
  | none =>
      refine ⟨objInsert (setRecord data now) idKey
          (.str (toStringV (Value.oid freshId))),
        serializeDoc (objInsert (setRecord data now) idKey
          (Value.oid freshId)), ?_, ?_, ?_, ?_,
        Value.oid freshId, ?_, ?_, ?_⟩
      · rw [set_eq st c data now freshId hc,
          insertOne_of_no_id c data now freshId hv]
      · intro k v' h1 h2 h3 hu hk
        rw [lookupV_serializeDoc, lookupV_objInsert_ne _ _ (Ne.symm h3),
          setRecord_other data now h1 h2, hk]
        simp [serializeValue_of_ne_undef hu]
      · intro v0 _ hk0
        exact absurd hk0 (by simp)
      · intro _
        rw [lookupV_serializeDoc, lookupV_objInsert_self]
        rfl
      · rw [lookupV_serializeDoc, lookupV_objInsert_self]
        rfl
      · exact lookupV_objInsert_self _ _ _
      · intro k hk
        rw [lookupV_objInsert_ne _ _ (Ne.symm hk), lookupV_serializeDoc,
          lookupV_objInsert_ne _ _ (Ne.symm hk)]

theorem set_insertion_shape_witness :
    (MongoDriver.connect []).collection = some [] ∧
    (∃ ret stored, MongoDriver.set (MongoDriver.connect [])
        [("name", Value.str "a"), (idKey, Value.num 7)] "T"
        "aaaaaaaaaaaaaaaaaaaaaaaa"
        = .ok (⟨some (), some ([] ++ [stored])⟩, ret) ∧
      (∀ k v, k ≠ createdAtKey → k ≠ updatedAtKey → k ≠ idKey →
        v ≠ Value.undef →
        lookupV [("name", Value.str "a"), (idKey, Value.num 7)] k = some v →
        lookupV stored k = some v) ∧
      (∀ v, isNullish v = false →
        lookupV [("name", Value.str "a"), (idKey, Value.num 7)] idKey
          = some v →
        lookupV stored idKey = some v) ∧
      ((lookupV [("name", Value.str "a"), (idKey, Value.num 7)] idKey = none ∨
        (∃ v, lookupV [("name", Value.str "a"), (idKey, Value.num 7)] idKey
            = some v ∧ isNullish v = true)) →
        lookupV stored idKey
          = some (Value.oid "aaaaaaaaaaaaaaaaaaaaaaaa")) ∧
      ∃ iv, lookupV stored idKey = some iv ∧
        lookupV ret idKey = some (Value.str (toStringV iv)) ∧
        (∀ k, k ≠ idKey →
          (lookupV ret k).map serializeValue = lookupV stored k)) :=
  ⟨rfl,
   set_insertion_shape (MongoDriver.connect [])
     [] [("name", Value.str "a"), (idKey, Value.num 7)] "T"
     "aaaaaaaaaaaaaaaaaaaaaaaa" rfl⟩

/-- C10 counterexample: a caller field named `_createdAt` does not appear
unchanged in the inserted document — `set` overwrites it with the call-time
clock reading — so `set` does rewrite one class of caller fields. -/
theorem set_rewrites_caller_createdAt_cex :
    MongoDriver.set (MongoDriver.connect []) [(createdAtKey, Value.str "x")]
        "T" "aaaaaaaaaaaaaaaaaaaaaaaa" =
      .ok (⟨some (), some [[(createdAtKey, Value.str "T"),
            (updatedAtKey, Value.str "T"),
            (idKey, Value.oid "aaaaaaaaaaaaaaaaaaaaaaaa")]]⟩,
          [(createdAtKey, Value.str "T"), (updatedAtKey, Value.str "T"),
            (idKey, Value.str "aaaaaaaaaaaaaaaaaaaaaaaa")]) ∧
    lookupV [(createdAtKey, Value.str "T"), (updatedAtKey, Value.str "T"),
        (idKey, Value.oid "aaaaaaaaaaaaaaaaaaaaaaaa")] createdAtKey
      = some (Value.str "T") ∧
    Value.str "T" ≠ Value.str "x" :=
  ⟨rfl, rfl, by decide⟩

/-- C6 (amended): records returned by `get`/`getOne` never carry a native
identifier object as identifier; when the backing store holds the identifier
as a native identifier object it is returned as its canonical hex text, and
a textual stored identifier stays textual — but a stored identifier of
another representation (e.g. numeric) is passed through unchanged, not
converted to text (see the counterexample). -/
theorem get_getOne_id_never_native (st : DriverState) (query : Doc) :
    (∀ results, MongoDriver.get st query = .ok results →
      ∀ d ∈ results, ∃ v, lookupV d idKey = some v ∧ isOidValue v = false) ∧
    (∀ d, MongoDriver.getOne st query = .ok (some d) →
      ∃ v, lookupV d idKey = some v ∧ isOidValue v = false) ∧
    (∀ doc hx, lookupV doc idKey = some (Value.oid hx) →
      lookupV (MongoDriver.convertDocument doc) idKey
        = some (Value.str hx)) ∧
    (∀ doc s, lookupV doc idKey = some (Value.str s) →
      lookupV (MongoDriver.convertDocument doc) idKey
        = some (Value.str s)) := by
  refine ⟨?_, ?_, ?_, ?_⟩
  · intro results hres d hd
    cases hc : st.collection with
    | none =>
        rw [MongoDriver.get] at hres
        simp [MongoDriver.ensureConnected, hc, Except.bind, Bind.bind] at hres
    | some c =>
        rw [MongoDriver.get] at hres
        simp only [MongoDriver.ensureConnected, hc, Except.bind, Bind.bind,
          Except.ok.injEq] at hres
        rw [← hres] at hd
        rcases List.mem_map.mp hd with ⟨d0, _, hd0⟩
        rw [← hd0]
        exact isOidValue_convertDocument_id d0
  · intro d hres
    cases hc : st.collection with
    | none =>
        rw [MongoDriver.getOne] at hres
        simp [MongoDriver.ensureConnected, hc, Except.bind, Bind.bind] at hres
    | some c =>
        rw [MongoDriver.getOne] at hres
        simp only [MongoDriver.ensureConnected, hc, Except.bind, Bind.bind,
          Except.ok.injEq] at hres
        rcases Option.map_eq_some'.mp hres with ⟨d0, _, hd0⟩
        rw [← hd0]
        exact isOidValue_convertDocument_id d0
  · intro doc hx hv
    rw [lookupV_convertDocument_id doc, hv]
    rfl
  · intro doc s hv
    rw [lookupV_convertDocument_id doc, hv]
    rfl

theorem get_getOne_id_never_native_witness :
    ∃ v, lookupV [(idKey, Value.str "aaaaaaaaaaaaaaaaaaaaaaaa"),
        ("n", Value.num 1)] idKey = some v ∧ isOidValue v = false :=
  ((get_getOne_id_never_native
      (MongoDriver.connect
        [[(idKey, Value.oid "aaaaaaaaaaaaaaaaaaaaaaaa"), ("n", Value.num 1)]])
      [("n", Value.num 1)]).1
    [[(idKey, Value.str "aaaaaaaaaaaaaaaaaaaaaaaa"), ("n", Value.num 1)]]
    rfl
    [(idKey, Value.str "aaaaaaaaaaaaaaaaaaaaaaaa"), ("n", Value.num 1)]
    (by decide))

/-- C6 counterexample: a record stored with a numeric identifier is returned
by `get` with that numeric identifier unchanged — the returned identifier is
not textual, so identifiers are not always normalized to text (they are only
never native identifier objects). -/
theorem get_numeric_id_not_textual_cex :
    MongoDriver.get
        (MongoDriver.connect [[(idKey, Value.num 5), ("name", Value.str "a")]])
        [("name", Value.str "a")]
      = .ok [[(idKey, Value.num 5), ("name", Value.str "a")]] ∧
    lookupV [(idKey, Value.num 5), ("name", Value.str "a")] idKey
      = some (Value.num 5) ∧
    isTextual (Value.num 5) = false :=
  ⟨rfl, rfl, rfl⟩
